import Mathlib

/-!
Verification of the credit-and-redemption ledger of the Osint_Tracker bot.

The definitions below are a shallow embedding of `src/database.py`:
SQLite tables become association lists, each database function becomes a
pure Lean function on an explicit `DB` state, and wall-clock inputs
(`datetime.now()`, `datetime.fromisoformat`) become explicit parameters.
Timestamps are stored as the strings the code writes; the ISO-8601 parser
`datetime.fromisoformat` (standard library, not repository code) is passed
in as a parameter `fromiso : String → Option Int`, returning an absolute
time in minutes when it succeeds and `none` when it raises.
Characters are modelled at the ASCII level (the bot's inputs).
-/

namespace OsintTracker

/-- One row of the `users` table (`user_id` is the association-list key). -/
structure UserRow where
  username : String
  credits : Int
  joined_date : String
  referrer_id : Option Int
  is_banned : Bool
  total_earned : Int
  last_active : String
  deriving DecidableEq

/-- One row of the `redeem_codes` table (`code` is the association-list key). -/
structure CodeRow where
  amount : Int
  max_uses : Int
  current_uses : Int
  expiry_minutes : Option Int
  created_date : String
  is_active : Bool
  deriving DecidableEq

/-- The mutable database state: users, redeem codes and the redemption log
(rows `(user_id, code, claimed_date)`). -/
structure DB where
  users : List (Int × UserRow)
  codes : List (String × CodeRow)
  redeem_logs : List (Int × String × String)
  deriving DecidableEq

def emptyDB : DB := ⟨[], [], []⟩

/-- Model of `SELECT ... WHERE key = ?` with `fetchone`: the first row with the key. -/
def lookupRow {α β : Type} [DecidableEq α] (k : α) : List (α × β) → Option β
  | [] => none
  | p :: rest => if p.1 = k then some p.2 else lookupRow k rest

/-- Model of `UPDATE ... WHERE key = ?`: rewrite every row carrying the key. -/
def updateRow {α β : Type} [DecidableEq α] (k : α) (f : β → β) (l : List (α × β)) :
    List (α × β) :=
  l.map fun p => if p.1 = k then (p.1, f p.2) else p

/-- Row update `UPDATE users SET credits = credits + 3, total_earned = total_earned + 3`
(the referral bonus row update in `add_user`). -/
def bonusRow (u : UserRow) : UserRow :=
  { u with credits := u.credits + 3, total_earned := u.total_earned + 3 }

/-- Row update `UPDATE users SET credits = credits + a, total_earned = total_earned + a,
last_active = now` (shared by `update_credits`'s positive branch and the
success step of `redeem_code_db`). -/
def creditEarnRow (now : String) (a : Int) (u : UserRow) : UserRow :=
  { u with credits := u.credits + a, total_earned := u.total_earned + a,
           last_active := now }

/-- Row update `UPDATE users SET credits = credits + a, last_active = now`
(`update_credits`'s non-positive branch). -/
def creditOnlyRow (now : String) (a : Int) (u : UserRow) : UserRow :=
  { u with credits := u.credits + a, last_active := now }

/-- Row update `UPDATE redeem_codes SET current_uses = current_uses + 1`. -/
def incUsesRow (k : CodeRow) : CodeRow :=
  { k with current_uses := k.current_uses + 1 }

/-- The row `add_user` inserts: starting balance 5, stored referral link,
defaults `is_banned = 0`, `total_earned = 0`. -/
def newUserRow (now : String) (un : Option String) (r : Option Int) : UserRow :=
  { username := un.getD "", credits := 5, joined_date := now,
    referrer_id := r, is_banned := false, total_earned := 0, last_active := now }

/-- The row `create_redeem_code` inserts: zero uses, active flag set. -/
def newCodeRow (now : String) (a m : Int) (e : Option Int) : CodeRow :=
  { amount := a, max_uses := m, current_uses := 0, expiry_minutes := e,
    created_date := now, is_active := true }

/-- Translation of `add_user(user_id, username, referrer_id)` from `src/database.py`.
`now` stands for `datetime.now().isoformat()`.  Note the Python guard
`if referrer_id:` is falsy both for `None` and for the integer `0`. -/
def add_user (now : String) (user_id : Int) (username : Option String)
    (referrer_id : Option Int) (db : DB) : Bool × DB :=
  if (lookupRow user_id db.users).isSome then
    (false, db)
  else
    let db1 :=
      match referrer_id with
      | none => db
      | some r =>
        if r = 0 then db
        else if (lookupRow r db.users).isSome then
          { db with users := updateRow r bonusRow db.users }
        else db
    let newRow : UserRow := newUserRow now username referrer_id
    (true, { db1 with users := db1.users ++ [(user_id, newRow)] })

/-- Translation of `update_credits(user_id, amount)` from `src/database.py`. -/
def update_credits (now : String) (user_id : Int) (amount : Int) (db : DB) :
    Bool × DB :=
  if 0 < amount then
    (true, { db with users := updateRow user_id (creditEarnRow now amount) db.users })
  else
    (true, { db with users := updateRow user_id (creditOnlyRow now amount) db.users })

/-- Translation of `create_redeem_code(code, amount, max_uses, expiry_minutes)` from
`src/database.py`. -/
def create_redeem_code (now : String) (code : String) (amount : Int)
    (max_uses : Int) (expiry_minutes : Option Int) (db : DB) :
    (Bool × String) × DB :=
  if (lookupRow code db.codes).isSome then
    ((false, "Code already exists"), db)
  else if amount ≤ 0 then
    ((false, "Amount must be positive"), db)
  else if max_uses ≤ 0 then
    ((false, "Max uses must be positive"), db)
  else
    let row : CodeRow := newCodeRow now amount max_uses expiry_minutes
    ((true, "Code created successfully"), { db with codes := db.codes ++ [(code, row)] })

/-- Outcomes of `redeem_code_db`.  The Python function returns either one of
these tag strings or the credited integer amount; the generic
`"error: ..."` branch only fires on storage exceptions, which the pure
model does not have. -/
inductive RedeemResult where
  | user_not_found
  | already_claimed
  | invalid
  | inactive
  | limit_reached
  | expired
  | credited (amount : Int)
  deriving DecidableEq

/-- Test that `SELECT 1 FROM redeem_logs WHERE user_id = ? AND code = ?` is non-empty. -/
def alreadyClaimed (db : DB) (user_id : Int) (code : String) : Bool :=
  db.redeem_logs.any fun r => r.1 == user_id && r.2.1 == code

/-- The expiry test inside `redeem_code_db`: only runs when
`expiry_minutes` is non-null and positive; a `fromisoformat` failure on
the stored creation timestamp is caught and the check skipped. -/
def isExpired (fromiso : String → Option Int) (nowDt : Int) (c : CodeRow) : Bool :=
  match c.expiry_minutes with
  | none => false
  | some m =>
    if 0 < m then
      match fromiso c.created_date with
      | none => false
      | some created => decide (created + m < nowDt)
    else false

/-- Translation of `redeem_code_db(user_id, code)` from `src/database.py`.  `nowDt` is
`datetime.now()` as minutes (for the expiry comparison), `now` the ISO
string written into mutated rows. -/
def redeem_code_db (fromiso : String → Option Int) (nowDt : Int) (now : String)
    (user_id : Int) (code : String) (db : DB) : RedeemResult × DB :=
  if (lookupRow user_id db.users).isNone then
    (.user_not_found, db)
  else if alreadyClaimed db user_id code then
    (.already_claimed, db)
  else
    match lookupRow code db.codes with
    | none => (.invalid, db)
    | some c =>
      if c.is_active = false then
        (.inactive, db)
      else if c.max_uses ≤ c.current_uses then
        (.limit_reached, db)
      else if isExpired fromiso nowDt c then
        (.expired, db)
      else
        (.credited c.amount,
          { users := updateRow user_id (creditEarnRow now c.amount) db.users,
            codes := updateRow code incUsesRow db.codes,
            redeem_logs := db.redeem_logs ++ [(user_id, code, now)] })

/-- Numeric value of an ASCII digit. -/
def digitVal (c : Char) : Nat := c.toNat - 48

/-- Model of `re.search(r'(\d+)u', s)` for a unit letter `u`: scanning left to
right, `acc` carries the value of the digit run ending at the current
position; the first such run immediately followed by `u` is returned. -/
def searchNumUnitAux (u : Char) (acc : Option Nat) : List Char → Option Nat
  | [] => none
  | c :: cs =>
    if c.isDigit then
      searchNumUnitAux u (some (10 * acc.getD 0 + digitVal c)) cs
    else if c = u then
      match acc with
      | some n => some n
      | none => searchNumUnitAux u none cs
    else
      searchNumUnitAux u none cs

def searchNumUnit (u : Char) (s : List Char) : Option Nat :=
  searchNumUnitAux u none s

/-- Python `str.isdigit` at the ASCII level: non-empty and all digits. -/
def pyIsDigit (s : List Char) : Bool :=
  !s.isEmpty && s.all Char.isDigit

/-- Value of `int` on a digit string. -/
def digitsVal (s : List Char) : Nat :=
  s.foldl (fun a c => 10 * a + digitVal c) 0

/-- The `total_minutes` accumulated from the three independent unit matches:
hours × 60, minutes × 1, days × 24 × 60 (addition order as in the code). -/
def totalMinutes (l : List Char) : Nat :=
  60 * (searchNumUnit 'h' l).getD 0 + (searchNumUnit 'm' l).getD 0
    + 1440 * (searchNumUnit 'd' l).getD 0

/-- The body of `parse_time_string` after the empty/none short-circuit,
on the lowercased character list. -/
def pttCore (l : List Char) : Option Nat :=
  if (searchNumUnit 'h' l).isSome || (searchNumUnit 'm' l).isSome
      || (searchNumUnit 'd' l).isSome then
    if 0 < totalMinutes l then some (totalMinutes l) else none
  else if pyIsDigit l then
    if 0 < digitsVal l then some (digitsVal l) else none
  else none

/-- Translation of `parse_time_string(time_str)` from `src/database.py`, on the string's
character list (Python's `.lower()` becomes a character-wise `toLower`). -/
def parse_time_string (time_str : String) : Option Nat :=
  if time_str.toList.isEmpty
      || time_str.toList.map Char.toLower = ['n', 'o', 'n', 'e'] then none
  else pttCore (time_str.toList.map Char.toLower)


/-- The character list of an input of the shape `"DdHhMm"`: a days
component, an hours component and a minutes component. -/
def unitConcat (ds hs ms : List Char) : List Char :=
  ds ++ ('d' :: (hs ++ ('h' :: (ms ++ ['m']))))

/-- The use-count invariant of the `redeem_codes` table: no row's current
use count exceeds its maximum uses. -/
def codesInv (db : DB) : Prop :=
  ∀ p ∈ db.codes, p.2.current_uses ≤ p.2.max_uses

/-- A timestamp parser that always fails (models a malformed stored
creation timestamp). -/
def fromisoFail : String → Option Int := fun _ => none

/-! Concrete fixtures used by witnesses and counterexamples. -/

def uRow : UserRow :=
  { username := "alice", credits := 5, joined_date := "t0", referrer_id := none,
    is_banned := false, total_earned := 0, last_active := "t0" }

def cRow : CodeRow :=
  { amount := 10, max_uses := 5, current_uses := 0, expiry_minutes := none,
    created_date := "t0", is_active := true }

def cRowFull : CodeRow :=
  { amount := 10, max_uses := 5, current_uses := 5, expiry_minutes := none,
    created_date := "t0", is_active := true }

def cRowExp : CodeRow :=
  { amount := 10, max_uses := 5, current_uses := 0, expiry_minutes := some 30,
    created_date := "t0", is_active := true }

def dbW : DB := { users := [(1, uRow)], codes := [("C", cRow)], redeem_logs := [] }

def dbLimit : DB :=
  { users := [(1, uRow)], codes := [("L", cRowFull)], redeem_logs := [] }

def dbExp : DB :=
  { users := [(1, uRow)], codes := [("E", cRowExp)], redeem_logs := [] }

def dbZero : DB := { users := [(0, uRow)], codes := [], redeem_logs := [] }

/-! ### Association-list lemmas -/

theorem lookupRow_append_of_none {α β : Type} [DecidableEq α] {k : α}
    {l1 : List (α × β)} (h : lookupRow k l1 = none) (l2 : List (α × β)) :
    lookupRow k (l1 ++ l2) = lookupRow k l2 := by
  induction l1 with
  | nil => rfl
  | cons p t ih =>
    by_cases hk : p.1 = k
    · simp [lookupRow, hk] at h
    · simp only [lookupRow, hk, if_neg, List.cons_append] at h ⊢
      exact ih h

theorem lookupRow_append_of_some {α β : Type} [DecidableEq α] {k : α}
    {l1 : List (α × β)} {v : β} (h : lookupRow k l1 = some v) (l2 : List (α × β)) :
    lookupRow k (l1 ++ l2) = some v := by
  induction l1 with
  | nil => simp [lookupRow] at h
  | cons p t ih =>
    by_cases hk : p.1 = k
    · simp only [lookupRow, hk, if_pos, List.cons_append] at h ⊢
      exact h
    · simp only [lookupRow, hk, if_neg, List.cons_append] at h ⊢
      exact ih h

theorem lookupRow_updateRow_self {α β : Type} [DecidableEq α] (k : α) (f : β → β)
    (l : List (α × β)) : lookupRow k (updateRow k f l) = (lookupRow k l).map f := by
  induction l with
  | nil => rfl
  | cons p t ih =>
    by_cases hk : p.1 = k
    · simp [lookupRow, updateRow, hk]
    · simp [lookupRow, updateRow, hk] at ih ⊢
      exact ih

theorem lookupRow_updateRow_ne {α β : Type} [DecidableEq α] {k k' : α} (f : β → β)
    (l : List (α × β)) (h : k' ≠ k) :
    lookupRow k (updateRow k' f l) = lookupRow k l := by
  have hsym : ¬k = k' := fun he => h he.symm
  induction l with
  | nil => rfl
  | cons p t ih =>
    by_cases hk : p.1 = k'
    · have hpk : ¬p.1 = k := fun he => h (hk ▸ he)
      simp [lookupRow, updateRow, hk, hpk, h] at ih ⊢
      exact ih
    · by_cases hk2 : p.1 = k
      · simp [lookupRow, updateRow, hk, hk2, hsym]
      · simp [lookupRow, updateRow, hk, hk2] at ih ⊢
        exact ih

theorem updateRow_of_lookup_none {α β : Type} [DecidableEq α] {k : α} (f : β → β)
    {l : List (α × β)} (h : lookupRow k l = none) : updateRow k f l = l := by
  induction l with
  | nil => rfl
  | cons p t ih =>
    by_cases hk : p.1 = k
    · simp [lookupRow, hk] at h
    · simp [lookupRow, hk] at h
      have ht := ih h
      simp only [updateRow] at ht ⊢
      simp [hk, ht]

theorem lookupRow_of_mem_nodup {α β : Type} [DecidableEq α] {l : List (α × β)}
    (hnd : (l.map Prod.fst).Nodup) {p : α × β} (hp : p ∈ l) :
    lookupRow p.1 l = some p.2 := by
  induction l with
  | nil => simp at hp
  | cons q t ih =>
    simp only [List.map_cons, List.nodup_cons] at hnd
    rcases List.mem_cons.mp hp with rfl | hmem
    · simp [lookupRow]
    · have hne : q.1 ≠ p.1 := by
        intro he
        exact hnd.1 (he ▸ List.mem_map_of_mem Prod.fst hmem)
      simp only [lookupRow, hne, if_neg]
      exact ih hnd.2 hmem

/-! ### Character and digit-scan lemmas (for the time parser) -/

theorem toLower_of_isDigit {c : Char} (h : c.isDigit = true) : c.toLower = c := by
  simp only [Char.isDigit, ge_iff_le, Bool.and_eq_true, decide_eq_true_eq] at h
  have h57 : c.toNat ≤ 57 := UInt32.toNat_le_of_le (by decide) h.2
  simp only [Char.toLower]
  rw [if_neg]
  omega

theorem searchNumUnitAux_digits (u : Char) {ds : List Char} (hds : ds ≠ [])
    (hdig : ∀ c ∈ ds, c.isDigit = true) (acc : Option Nat) (l : List Char) :
    searchNumUnitAux u acc (ds ++ l)
      = searchNumUnitAux u
          (some (ds.foldl (fun a c => 10 * a + digitVal c) (acc.getD 0))) l := by
  induction ds generalizing acc with
  | nil => exact absurd rfl hds
  | cons d t ih =>
    have hd : d.isDigit = true := hdig d (List.mem_cons_self d t)
    by_cases hnil : t = []
    · subst hnil
      simp [searchNumUnitAux, hd]
    · have step : searchNumUnitAux u acc ((d :: t) ++ l)
          = searchNumUnitAux u (some (10 * acc.getD 0 + digitVal d)) (t ++ l) := by
        simp [searchNumUnitAux, hd]
      rw [step, ih hnil (fun c hc => hdig c (List.mem_cons_of_mem d hc))]
      simp

theorem searchNumUnitAux_skip {u c : Char} (hdig : c.isDigit = false) (hne : c ≠ u)
    (acc : Option Nat) (l : List Char) :
    searchNumUnitAux u acc (c :: l) = searchNumUnitAux u none l := by
  cases acc <;> simp [searchNumUnitAux, hdig, hne]

theorem searchNumUnitAux_hit {u : Char} (hdig : u.isDigit = false) (n : Nat)
    (l : List Char) : searchNumUnitAux u (some n) (u :: l) = some n := by
  simp [searchNumUnitAux, hdig]

theorem map_toLower_id {L : List Char} (h : ∀ c ∈ L, c.toLower = c) :
    L.map Char.toLower = L := by
  induction L with
  | nil => rfl
  | cons c t ih =>
    simp only [List.map_cons, h c (List.mem_cons_self c t),
      ih (fun x hx => h x (List.mem_cons_of_mem c hx))]

/-! ### Claims -/

/-- C4.  The time-window parser is total onto (positive minutes |
no-expiry): every result is `none` or a positive count; for digit
components `D`, `H`, `M`, parsing `"DdHhMm"` yields
`D·1440 + H·60 + M·1` minutes (zero total collapsing to no-expiry); and
the spec's round-trip examples hold, with `""` and case-insensitive
`"none"` and `"0h0m"` all mapping to no-expiry. -/
theorem C4_time_window :
    (∀ s : String, parse_time_string s = none ∨
        ∃ n, 0 < n ∧ parse_time_string s = some n)
    ∧ (∀ ds hs ms : List Char, ds ≠ [] → hs ≠ [] → ms ≠ [] →
        (∀ c ∈ ds, c.isDigit = true) → (∀ c ∈ hs, c.isDigit = true) →
        (∀ c ∈ ms, c.isDigit = true) →
        parse_time_string (String.mk (unitConcat ds hs ms))
          = if 0 < 1440 * digitsVal ds + 60 * digitsVal hs + digitsVal ms
            then some (1440 * digitsVal ds + 60 * digitsVal hs + digitsVal ms)
            else none)
    ∧ parse_time_string "1h30m" = some 90
    ∧ parse_time_string "2h" = some 120
    ∧ parse_time_string "45" = some 45
    ∧ parse_time_string "" = none
    ∧ parse_time_string "none" = none
    ∧ parse_time_string "NONE" = none
    ∧ parse_time_string "0h0m" = none := by
  refine ⟨?_, ?_, by decide, by decide, by decide, by decide, by decide,
    by decide, by decide⟩
  · intro s
    unfold parse_time_string pttCore
    split
    · exact Or.inl rfl
    · split
      · split
        · next h => exact Or.inr ⟨_, h, rfl⟩
        · exact Or.inl rfl
      · split
        · split
          · next h => exact Or.inr ⟨_, h, rfl⟩
          · exact Or.inl rfl
        · exact Or.inl rfl
  · intro ds hs ms hdne hhne hmne hdd hhd hmd
    have hmapid : (unitConcat ds hs ms).map Char.toLower = unitConcat ds hs ms := by
      refine map_toLower_id ?_
      intro c hc
      unfold unitConcat at hc
      rcases List.mem_append.mp hc with hc1 | hc2
      · exact toLower_of_isDigit (hdd c hc1)
      · rcases List.mem_cons.mp hc2 with rfl | hc3
        · decide
        · rcases List.mem_append.mp hc3 with hc4 | hc5
          · exact toLower_of_isDigit (hhd c hc4)
          · rcases List.mem_cons.mp hc5 with rfl | hc6
            · decide
            · rcases List.mem_append.mp hc6 with hc7 | hc8
              · exact toLower_of_isDigit (hmd c hc7)
              · rcases List.mem_cons.mp hc8 with rfl | hc9
                · decide
                · simp at hc9
    have hLne : unitConcat ds hs ms ≠ [] := by
      unfold unitConcat
      cases ds with
      | nil => exact absurd rfl hdne
      | cons c t => simp
    have hnone : ¬unitConcat ds hs ms = ['n', 'o', 'n', 'e'] := by
      intro he
      have hdmem : 'd' ∈ unitConcat ds hs ms := by
        unfold unitConcat
        simp
      rw [he] at hdmem
      exact absurd hdmem (by decide)
    have htol : (String.mk (unitConcat ds hs ms)).toList = unitConcat ds hs ms := rfl
    have hday : searchNumUnit 'd' (unitConcat ds hs ms) = some (digitsVal ds) := by
      unfold searchNumUnit unitConcat
      rw [searchNumUnitAux_digits 'd' hdne hdd none]
      rw [searchNumUnitAux_hit (by decide)]
      simp [digitsVal]
    have hhour : searchNumUnit 'h' (unitConcat ds hs ms) = some (digitsVal hs) := by
      unfold searchNumUnit unitConcat
      rw [searchNumUnitAux_digits 'h' hdne hdd none]
      rw [searchNumUnitAux_skip (by decide) (by decide)]
      rw [searchNumUnitAux_digits 'h' hhne hhd none]
      rw [searchNumUnitAux_hit (by decide)]
      simp [digitsVal]
    have hmin : searchNumUnit 'm' (unitConcat ds hs ms) = some (digitsVal ms) := by
      unfold searchNumUnit unitConcat
      rw [searchNumUnitAux_digits 'm' hdne hdd none]
      rw [searchNumUnitAux_skip (by decide) (by decide)]
      rw [searchNumUnitAux_digits 'm' hhne hhd none]
      rw [searchNumUnitAux_skip (by decide) (by decide)]
      rw [searchNumUnitAux_digits 'm' hmne hmd none]
      rw [searchNumUnitAux_hit (by decide)]
      simp [digitsVal]
    unfold parse_time_string
    rw [htol, hmapid]
    rw [if_neg (by simp [hLne, hnone])]
    unfold pttCore totalMinutes
    rw [hday, hhour, hmin]
    simp only [Option.isSome_some, Bool.true_or, Bool.or_true, if_true,
      Option.getD_some]
    have harith : 60 * digitsVal hs + digitsVal ms + 1440 * digitsVal ds
        = 1440 * digitsVal ds + 60 * digitsVal hs + digitsVal ms := by ring
    rw [harith]

/-- A closed instance of the component clause of `C4_time_window`:
`"2d1h30m"` parses to `2·1440 + 1·60 + 30 = 2970` minutes. -/
theorem C4_time_window_witness :
    parse_time_string (String.mk (unitConcat ['2'] ['1'] ['3', '0'])) = some 2970 := by
  have h := C4_time_window.2.1 ['2'] ['1'] ['3', '0'] (by decide) (by decide)
    (by decide) (by decide) (by decide) (by decide)
  rw [h]
  decide

/-- C1.  The function `redeem_code_db` performs the spec's checks in order and
returns the named outcome of the first failing check
(`user_not_found`, `already_claimed`, `invalid`, `inactive`,
`limit_reached`, `expired`); only when all checks pass does it increment
the code's use count by one, credit the user's balance and lifetime
earned by the code's amount, append the redemption record and return the
credited amount; on any failing check the state is unchanged. -/
theorem C1_redeem_code_ordered (fromiso : String → Option Int) (nowDt : Int)
    (now : String) (uid : Int) (code : String) (db : DB) :
    ((redeem_code_db fromiso nowDt now uid code db).1 = .user_not_found ↔
        lookupRow uid db.users = none)
    ∧ ((redeem_code_db fromiso nowDt now uid code db).1 = .already_claimed ↔
        (lookupRow uid db.users).isSome = true ∧ alreadyClaimed db uid code = true)
    ∧ ((redeem_code_db fromiso nowDt now uid code db).1 = .invalid ↔
        (lookupRow uid db.users).isSome = true ∧ alreadyClaimed db uid code = false
          ∧ lookupRow code db.codes = none)
    ∧ (∀ c : CodeRow, lookupRow code db.codes = some c →
        (((redeem_code_db fromiso nowDt now uid code db).1 = .inactive ↔
            (lookupRow uid db.users).isSome = true
              ∧ alreadyClaimed db uid code = false ∧ c.is_active = false)
          ∧ ((redeem_code_db fromiso nowDt now uid code db).1 = .limit_reached ↔
            (lookupRow uid db.users).isSome = true
              ∧ alreadyClaimed db uid code = false ∧ c.is_active = true
              ∧ c.max_uses ≤ c.current_uses)
          ∧ ((redeem_code_db fromiso nowDt now uid code db).1 = .expired ↔
            (lookupRow uid db.users).isSome = true
              ∧ alreadyClaimed db uid code = false ∧ c.is_active = true
              ∧ c.current_uses < c.max_uses ∧ isExpired fromiso nowDt c = true)
          ∧ ((lookupRow uid db.users).isSome = true →
              alreadyClaimed db uid code = false → c.is_active = true →
              c.current_uses < c.max_uses → isExpired fromiso nowDt c = false →
              (redeem_code_db fromiso nowDt now uid code db).1 = .credited c.amount
              ∧ lookupRow code (redeem_code_db fromiso nowDt now uid code db).2.codes
                  = some { c with current_uses := c.current_uses + 1 }
              ∧ (∀ u : UserRow, lookupRow uid db.users = some u →
                  lookupRow uid (redeem_code_db fromiso nowDt now uid code db).2.users
                    = some { u with credits := u.credits + c.amount,
                                    total_earned := u.total_earned + c.amount,
                                    last_active := now })
              ∧ (redeem_code_db fromiso nowDt now uid code db).2.redeem_logs
                  = db.redeem_logs ++ [(uid, code, now)])))
    ∧ ((∀ a : Int, (redeem_code_db fromiso nowDt now uid code db).1 ≠ .credited a) →
        (redeem_code_db fromiso nowDt now uid code db).2 = db) := by
  cases h1 : lookupRow uid db.users with
  | none =>
    have e : redeem_code_db fromiso nowDt now uid code db = (.user_not_found, db) := by
      simp [redeem_code_db, h1]
    refine ⟨by simp [e, h1], by simp [e, h1], by simp [e, h1],
      fun c hc => ⟨by simp [e, h1], by simp [e, h1], by simp [e, h1], by simp [e, h1]⟩,
      by simp [e]⟩
  | some u =>
    by_cases h2 : alreadyClaimed db uid code = true
    · have e : redeem_code_db fromiso nowDt now uid code db = (.already_claimed, db) := by
        simp [redeem_code_db, h1, h2]
      refine ⟨by simp [e, h1], by simp [e, h1, h2], by simp [e, h2],
        fun c hc => ⟨by simp [e, h2], by simp [e, h2], by simp [e, h2], by simp [e, h2]⟩,
        by simp [e]⟩
    · rw [Bool.not_eq_true] at h2
      cases h3 : lookupRow code db.codes with
      | none =>
        have e : redeem_code_db fromiso nowDt now uid code db = (.invalid, db) := by
          simp [redeem_code_db, h1, h2, h3]
        refine ⟨by simp [e, h1], by simp [e, h2], by simp [e, h1, h2, h3], ?_, by simp [e]⟩
        intro c hc
        exact Option.noConfusion hc
      | some c0 =>
        cases h4 : c0.is_active with
        | false =>
          have e : redeem_code_db fromiso nowDt now uid code db = (.inactive, db) := by
            simp [redeem_code_db, h1, h2, h3, h4]
          refine ⟨by simp [e, h1], by simp [e, h2], by simp [e, h3], ?_, by simp [e]⟩
          intro c hc
          obtain rfl : c0 = c := by injection hc
          exact ⟨by simp [e, h1, h2, h4], by simp [e, h4], by simp [e, h4],
            by simp [h4]⟩
        | true =>
          by_cases h5 : c0.max_uses ≤ c0.current_uses
          · have e : redeem_code_db fromiso nowDt now uid code db
                = (.limit_reached, db) := by
              simp [redeem_code_db, h1, h2, h3, h4, h5]
            refine ⟨by simp [e, h1], by simp [e, h2], by simp [e, h3], ?_, by simp [e]⟩
            intro c hc
            obtain rfl : c0 = c := by injection hc
            refine ⟨by simp [e, h4], by simp [e, h1, h2, h4, h5], by simp [e, h5],
              fun _ _ _ hlt _ => absurd h5 (by omega)⟩
          · cases h6 : isExpired fromiso nowDt c0 with
            | true =>
              have e : redeem_code_db fromiso nowDt now uid code db
                  = (.expired, db) := by
                simp [redeem_code_db, h1, h2, h3, h4, h5, h6]
              refine ⟨by simp [e, h1], by simp [e, h2], by simp [e, h3], ?_, by simp [e]⟩
              intro c hc
              obtain rfl : c0 = c := by injection hc
              refine ⟨by simp [e, h4], by simp [e, h5], ?_, fun _ _ _ _ hex => by
                rw [h6] at hex
                exact Bool.noConfusion hex⟩
              constructor
              · intro _
                exact ⟨by simp [h1], h2, h4, by omega, h6⟩
              · intro _
                simp [e]
            | false =>
              have e : redeem_code_db fromiso nowDt now uid code db
                  = (.credited c0.amount,
                    { users := updateRow uid (creditEarnRow now c0.amount) db.users,
                      codes := updateRow code incUsesRow db.codes,
                      redeem_logs := db.redeem_logs ++ [(uid, code, now)] }) := by
                simp [redeem_code_db, h1, h2, h3, h4, h5, h6]
              refine ⟨by simp [e, h1], by simp [e, h2], by simp [e, h3], ?_, ?_⟩
              · intro c hc
                obtain rfl : c0 = c := by injection hc
                refine ⟨by simp [e, h4], by simp [e, h5], by simp [e, h6], ?_⟩
                intro _ _ _ _ _
                refine ⟨by simp [e], ?_, ?_, by simp [e]⟩
                · rw [e]
                  show lookupRow code (updateRow code incUsesRow db.codes)
                      = some { c0 with current_uses := c0.current_uses + 1 }
                  rw [lookupRow_updateRow_self, h3]
                  rfl
                · intro u2 hu2
                  obtain rfl : u = u2 := by injection hu2
                  rw [e]
                  show lookupRow uid (updateRow uid (creditEarnRow now c0.amount) db.users)
                      = _
                  rw [lookupRow_updateRow_self, h1]
                  rfl
              · intro hno
                exact absurd (by simp [e]) (hno c0.amount)

/-- Closed instance of `C1_redeem_code_ordered`: in `dbW` every check
passes and user 1 is credited the code's amount 10. -/
theorem C1_redeem_code_ordered_witness :
    (redeem_code_db fromisoFail 0 "t1" 1 "C" dbW).1 = RedeemResult.credited 10 := by
  have h := (C1_redeem_code_ordered fromisoFail 0 "t1" 1 "C" dbW).2.2.2.1 cRow
    (by decide)
  exact (h.2.2.2 (by decide) (by decide) (by decide) (by decide) (by decide)).1

/-- C2.  The use-count ceiling: a redemption attempt on a code whose
current uses have reached max uses (with the earlier checks passing)
returns `limit_reached` with the state unchanged; every successful
redemption increments the code's use count by exactly one and is only
possible below the ceiling; and the invariant `current_uses ≤ max_uses`
is preserved by redeeming, creating codes, registering users and
adjusting balances. -/
theorem C2_use_count_ceiling :
    (∀ (fromiso : String → Option Int) (nowDt : Int) (now : String) (uid : Int)
        (code : String) (db : DB) (c : CodeRow),
        lookupRow code db.codes = some c →
        (lookupRow uid db.users).isSome = true →
        alreadyClaimed db uid code = false →
        c.is_active = true → c.max_uses ≤ c.current_uses →
        redeem_code_db fromiso nowDt now uid code db = (.limit_reached, db))
    ∧ (∀ (fromiso : String → Option Int) (nowDt : Int) (now : String) (uid : Int)
        (code : String) (db : DB) (c : CodeRow) (a : Int) (db2 : DB),
        lookupRow code db.codes = some c →
        redeem_code_db fromiso nowDt now uid code db = (.credited a, db2) →
        lookupRow code db2.codes = some { c with current_uses := c.current_uses + 1 }
          ∧ c.current_uses < c.max_uses)
    ∧ (∀ db : DB, codesInv db → (db.codes.map Prod.fst).Nodup →
        ∀ (fromiso : String → Option Int) (nowDt : Int) (now : String) (uid : Int)
          (code : String),
          codesInv (redeem_code_db fromiso nowDt now uid code db).2)
    ∧ (∀ (db : DB) (now code : String) (a m : Int) (e : Option Int), codesInv db →
        codesInv (create_redeem_code now code a m e db).2)
    ∧ (∀ (db : DB) (now : String) (uid : Int) (un : Option String)
        (r : Option Int), codesInv db → codesInv (add_user now uid un r db).2)
    ∧ (∀ (db : DB) (now : String) (uid d : Int), codesInv db →
        codesInv (update_credits now uid d db).2) := by
  refine ⟨?_, ?_, ?_, ?_, ?_, ?_⟩
  · intro fromiso nowDt now uid code db c hlook hu hcl hact hfull
    obtain ⟨u, hu2⟩ := Option.isSome_iff_exists.mp hu
    simp [redeem_code_db, hu2, hcl, hlook, hact, hfull]
  · intro fromiso nowDt now uid code db c a db2 hlook hred
    unfold redeem_code_db at hred
    by_cases h1 : (lookupRow uid db.users).isNone = true
    · rw [if_pos h1] at hred
      simp at hred
    · rw [if_neg h1] at hred
      by_cases h2 : alreadyClaimed db uid code = true
      · rw [if_pos h2] at hred
        simp at hred
      · rw [if_neg h2] at hred
        simp only [hlook] at hred
        by_cases h4 : c.is_active = false
        · rw [if_pos h4] at hred
          simp at hred
        · rw [if_neg h4] at hred
          by_cases h5 : c.max_uses ≤ c.current_uses
          · rw [if_pos h5] at hred
            simp at hred
          · rw [if_neg h5] at hred
            by_cases h6 : isExpired fromiso nowDt c = true
            · rw [if_pos h6] at hred
              simp at hred
            · rw [if_neg h6] at hred
              injection hred with hA hB
              constructor
              · rw [← hB]
                show lookupRow code (updateRow code incUsesRow db.codes) = _
                rw [lookupRow_updateRow_self, hlook]
                rfl
              · omega
  · intro db hinv hnd fromiso nowDt now uid code
    unfold redeem_code_db
    by_cases h1 : (lookupRow uid db.users).isNone = true
    · rw [if_pos h1]
      exact hinv
    · rw [if_neg h1]
      by_cases h2 : alreadyClaimed db uid code = true
      · rw [if_pos h2]
        exact hinv
      · rw [if_neg h2]
        cases h3 : lookupRow code db.codes with
        | none => exact hinv
        | some c =>
          dsimp only
          by_cases h4 : c.is_active = false
          · rw [if_pos h4]
            exact hinv
          · rw [if_neg h4]
            by_cases h5 : c.max_uses ≤ c.current_uses
            · rw [if_pos h5]
              exact hinv
            · rw [if_neg h5]
              by_cases h6 : isExpired fromiso nowDt c = true
              · rw [if_pos h6]
                exact hinv
              · rw [if_neg h6]
                intro p hp
                simp only [updateRow, List.mem_map] at hp
                obtain ⟨q, hq, hpq⟩ := hp
                by_cases hk : q.1 = code
                · rw [if_pos hk] at hpq
                  have hlq : lookupRow code db.codes = some q.2 := by
                    have := lookupRow_of_mem_nodup hnd hq
                    rwa [hk] at this
                  rw [h3] at hlq
                  have hqc : q.2 = c := by
                    injection hlq with h
                    exact h.symm
                  subst hpq
                  simp only [incUsesRow, hqc]
                  omega
                · rw [if_neg hk] at hpq
                  subst hpq
                  exact hinv q hq
  · intro db now code a m e hinv
    unfold create_redeem_code
    by_cases h1 : (lookupRow code db.codes).isSome = true
    · rw [if_pos h1]
      exact hinv
    · rw [if_neg h1]
      by_cases h2 : a ≤ 0
      · rw [if_pos h2]
        exact hinv
      · rw [if_neg h2]
        by_cases h3 : m ≤ 0
        · rw [if_pos h3]
          exact hinv
        · rw [if_neg h3]
          intro p hp
          rcases List.mem_append.mp hp with hold | hnew
          · exact hinv p hold
          · rcases List.mem_singleton.mp hnew with rfl
            show (0 : Int) ≤ m
            omega
  · intro db now uid un r hinv
    have hcodes : (add_user now uid un r db).2.codes = db.codes := by
      unfold add_user
      by_cases h1 : (lookupRow uid db.users).isSome = true
      · rw [if_pos h1]
      · rw [if_neg h1]
        rcases r with _ | rv
        · rfl
        · by_cases h0 : rv = 0
          · simp [h0]
          · by_cases h2 : (lookupRow rv db.users).isSome = true
            · simp [h0, h2]
            · simp [h0, h2]
    intro p hp
    rw [hcodes] at hp
    exact hinv p hp
  · intro db now uid d hinv
    have hcodes : (update_credits now uid d db).2.codes = db.codes := by
      unfold update_credits
      by_cases h1 : 0 < d
      · rw [if_pos h1]
      · rw [if_neg h1]
    intro p hp
    rw [hcodes] at hp
    exact hinv p hp

/-- Closed instance of `C2_use_count_ceiling`: in `dbLimit` the code `"L"`
is at its ceiling (5 of 5 uses) and redemption returns `limit_reached`
without mutating the state. -/
theorem C2_use_count_ceiling_witness :
    redeem_code_db fromisoFail 0 "t1" 1 "L" dbLimit
      = (RedeemResult.limit_reached, dbLimit) :=
  C2_use_count_ceiling.1 fromisoFail 0 "t1" 1 "L" dbLimit cRowFull (by decide)
    (by decide) (by decide) (by decide) (by decide)

/-- C3 counterexample.  The function `add_user` does not enforce the
no-self-referrer invariant: registering user 7 with referrer identity 7
succeeds and stores `referrer_id = 7` on user 7's own row, so a
reachable users-table state does contain a self-referring row. -/
theorem C3_counterexample :
    (add_user "t1" 7 (some "bob") (some 7) emptyDB).1 = true
    ∧ (lookupRow 7 (add_user "t1" 7 (some "bob") (some 7) emptyDB).2.users).map
        (fun u => u.referrer_id) = some (some 7) := by decide

/-- C3 amended.  When `add_user` is called for a fresh identity with
referrer identity equal to the new identity, the referrer-existence
check fails (the user does not exist yet), so no bonus is paid and no
other row changes, but the self-referral link *is* stored on the new
row; the store itself never rejects a self-referrer (only the Telegram
handler filters it). -/
theorem C3_self_referrer (now : String) (uid : Int) (un : Option String)
    (db : DB) (h : lookupRow uid db.users = none) :
    (add_user now uid un (some uid) db).1 = true
    ∧ lookupRow uid (add_user now uid un (some uid) db).2.users
        = some (newUserRow now un (some uid))
    ∧ ∀ v : Int, v ≠ uid →
        lookupRow v (add_user now uid un (some uid) db).2.users
          = lookupRow v db.users := by
  have hnotSome : ¬(lookupRow uid db.users).isSome = true := by simp [h]
  have hmain : (add_user now uid un (some uid) db).2.users
      = db.users ++ [(uid, newUserRow now un (some uid))] := by
    unfold add_user
    rw [if_neg hnotSome]
    by_cases h0 : uid = 0
    · simp [h0]
    · simp [h0, hnotSome]
  refine ⟨?_, ?_, ?_⟩
  · unfold add_user
    rw [if_neg hnotSome]
  · rw [hmain, lookupRow_append_of_none h]
    simp [lookupRow]
  · intro v hv
    rw [hmain]
    cases hlv : lookupRow v db.users with
    | none =>
      rw [lookupRow_append_of_none hlv]
      have hvu : ¬uid = v := fun he => hv he.symm
      simp [lookupRow, hvu]
    | some w => rw [lookupRow_append_of_some hlv]

/-- Closed instance of `C3_self_referrer` at user 7 over the empty store. -/
theorem C3_self_referrer_witness :
    lookupRow 7 (add_user "t1" 7 (some "bob") (some 7) emptyDB).2.users
      = some (newUserRow "t1" (some "bob") (some 7)) :=
  (C3_self_referrer "t1" 7 (some "bob") emptyDB (by decide)).2.1

/-- C5 counterexample.  The referral bonus is guarded by Python
truthiness (`if referrer_id:`), which is false for the integer `0`: in
`dbZero` user 0 exists with balance 5, yet registering user 1 with
referrer identity 0 leaves user 0's balance at 5 instead of crediting
the bonus, refuting "if the supplied referrer identity resolves to an
existing user, that referrer's balance increases by exactly 3". -/
theorem C5_counterexample :
    lookupRow 0 dbZero.users = some uRow
    ∧ uRow.credits = 5
    ∧ (add_user "t1" 1 (some "bob") (some 0) dbZero).1 = true
    ∧ (lookupRow 0 (add_user "t1" 1 (some "bob") (some 0) dbZero).2.users).map
        (fun u => u.credits) = some 5 := by decide

/-- C5 amended.  For a fresh identity: if the supplied referrer
identity is *non-zero* and resolves to an existing user, that referrer's
balance and lifetime-earned each grow by exactly 3 in the same
registration step; if the referrer identity does not resolve — or is the
(truthiness-falsy) integer 0, even when user 0 exists — the bonus is
skipped; in every case the referral link is stored on the new row and
the new user's starting balance is exactly 5. -/
theorem C5_referral_bonus (now : String) (uid r : Int) (un : Option String)
    (db : DB) (h : lookupRow uid db.users = none) :
    (∀ ru : UserRow, r ≠ 0 → lookupRow r db.users = some ru →
        (add_user now uid un (some r) db).1 = true
        ∧ lookupRow r (add_user now uid un (some r) db).2.users
            = some { ru with credits := ru.credits + 3,
                             total_earned := ru.total_earned + 3 }
        ∧ lookupRow uid (add_user now uid un (some r) db).2.users
            = some (newUserRow now un (some r)))
    ∧ (lookupRow r db.users = none →
        (add_user now uid un (some r) db).2.users
          = db.users ++ [(uid, newUserRow now un (some r))])
    ∧ (r = 0 →
        (add_user now uid un (some r) db).2.users
          = db.users ++ [(uid, newUserRow now un (some r))]) := by
  have hnotSome : ¬(lookupRow uid db.users).isSome = true := by simp [h]
  refine ⟨?_, ?_, ?_⟩
  · intro ru hr0 hru
    have hrne : r ≠ uid := fun he => by
      rw [he, h] at hru
      exact Option.noConfusion hru
    have hmain : (add_user now uid un (some r) db).2.users
        = updateRow r bonusRow db.users ++ [(uid, newUserRow now un (some r))] := by
      unfold add_user
      rw [if_neg hnotSome]
      simp [hr0, hru]
    refine ⟨?_, ?_, ?_⟩
    · unfold add_user
      rw [if_neg hnotSome]
    · rw [hmain]
      have hup : lookupRow r (updateRow r bonusRow db.users)
          = some (bonusRow ru) := by
        rw [lookupRow_updateRow_self, hru]
        rfl
      rw [lookupRow_append_of_some hup]
      rfl
    · rw [hmain]
      have hup : lookupRow uid (updateRow r bonusRow db.users) = none := by
        rw [lookupRow_updateRow_ne _ _ hrne, h]
      rw [lookupRow_append_of_none hup]
      simp [lookupRow]
  · intro hrn
    unfold add_user
    rw [if_neg hnotSome]
    by_cases h0 : r = 0
    · simp [h0]
    · simp [h0, hrn]
  · intro h0
    unfold add_user
    rw [if_neg hnotSome]
    simp [h0]

/-- Closed instance of `C5_referral_bonus`: registering user 2 with
referrer 1 over `dbW` raises user 1's balance from 5 to 8. -/
theorem C5_referral_bonus_witness :
    (lookupRow 1 (add_user "t1" 2 (some "bob") (some 1) dbW).2.users).map
        (fun u => u.credits) = some 8 := by
  have h := (C5_referral_bonus "t1" 2 1 (some "bob") dbW (by decide)).1 uRow
    (by decide) (by decide)
  rw [h.2.1]
  decide

/-- C6.  For an existing user, `update_credits` returns `True`; a
positive delta raises both the balance and lifetime-earned by the delta,
a zero or negative delta changes the balance only (no floor), and in
both cases the last-activity timestamp is set to now. -/
theorem C6_adjust_balance (now : String) (uid d : Int) (db : DB)
    (u : UserRow) (h : lookupRow uid db.users = some u) :
    (update_credits now uid d db).1 = true
    ∧ lookupRow uid (update_credits now uid d db).2.users
        = some { u with credits := u.credits + d,
                        total_earned := u.total_earned + (if 0 < d then d else 0),
                        last_active := now } := by
  unfold update_credits
  by_cases hd : 0 < d
  · rw [if_pos hd]
    refine ⟨rfl, ?_⟩
    show lookupRow uid (updateRow uid (creditEarnRow now d) db.users) = _
    rw [lookupRow_updateRow_self, h]
    simp [creditEarnRow, hd]
  · rw [if_neg hd]
    refine ⟨rfl, ?_⟩
    show lookupRow uid (updateRow uid (creditOnlyRow now d) db.users) = _
    rw [lookupRow_updateRow_self, h]
    simp [creditOnlyRow, hd]

/-- Closed instance of `C6_adjust_balance`: debiting 7 from user 1 in
`dbW` drives the balance to −2 (no floor is enforced). -/
theorem C6_adjust_balance_witness :
    (lookupRow 1 (update_credits "t1" 1 (-7) dbW).2.users).map
        (fun u => (u.credits, u.total_earned, u.last_active))
      = some (-2, 0, "t1") := by
  have h := C6_adjust_balance "t1" 1 (-7) dbW uRow (by decide)
  rw [h.2]
  decide

/-- C7.  The function `create_redeem_code` fails with "Code already exists" when
the code string is taken (checked first), fails with a human-readable
validation message when the amount or the max-uses bound is
non-positive, mutating nothing in all three failure cases; otherwise it
appends exactly one new active code row and reports success. -/
theorem C7_create_code (now code : String) (a m : Int) (e : Option Int)
    (db : DB) :
    ((lookupRow code db.codes).isSome = true →
        create_redeem_code now code a m e db = ((false, "Code already exists"), db))
    ∧ (lookupRow code db.codes = none → a ≤ 0 →
        create_redeem_code now code a m e db
          = ((false, "Amount must be positive"), db))
    ∧ (lookupRow code db.codes = none → 0 < a → m ≤ 0 →
        create_redeem_code now code a m e db
          = ((false, "Max uses must be positive"), db))
    ∧ (lookupRow code db.codes = none → 0 < a → 0 < m →
        create_redeem_code now code a m e db
          = ((true, "Code created successfully"),
            { db with codes := db.codes ++ [(code, newCodeRow now a m e)] })) := by
  refine ⟨?_, ?_, ?_, ?_⟩
  · intro h1
    simp [create_redeem_code, h1]
  · intro h1 h2
    simp [create_redeem_code, h1, h2]
  · intro h1 h2 h3
    simp [create_redeem_code, h1, h3, not_le.mpr h2]
  · intro h1 h2 h3
    simp [create_redeem_code, h1, not_le.mpr h2, not_le.mpr h3]

/-- Closed instance of `C7_create_code`: creating code `"N"` over the
empty store succeeds and inserts one active row. -/
theorem C7_create_code_witness :
    create_redeem_code "t0" "N" 10 5 none emptyDB
      = ((true, "Code created successfully"),
        { emptyDB with codes := emptyDB.codes ++ [("N", newCodeRow "t0" 10 5 none)] }) :=
  (C7_create_code "t0" "N" 10 5 none emptyDB).2.2.2 (by decide) (by decide)
    (by decide)

/-- C8.  Expiry leniency in `redeem_code_db`: when a code has a
positive expiry but its stored creation timestamp fails to parse, the
expiry check is skipped and (the other checks passing) the redemption
succeeds as if the code never expires; conversely `expired` can only
arise from a successfully parsed creation timestamp whose
creation + expiry is not in the future. -/
theorem C8_expiry_leniency (fromiso : String → Option Int) (nowDt : Int)
    (now : String) (uid : Int) (code : String) (db : DB) :
    (∀ (c : CodeRow) (m : Int), lookupRow code db.codes = some c →
        c.expiry_minutes = some m → 0 < m → fromiso c.created_date = none →
        (lookupRow uid db.users).isSome = true →
        alreadyClaimed db uid code = false → c.is_active = true →
        c.current_uses < c.max_uses →
        (redeem_code_db fromiso nowDt now uid code db).1
          = RedeemResult.credited c.amount)
    ∧ ((redeem_code_db fromiso nowDt now uid code db).1 = RedeemResult.expired →
        ∃ (c : CodeRow) (m created : Int),
          lookupRow code db.codes = some c ∧ c.expiry_minutes = some m ∧ 0 < m
            ∧ fromiso c.created_date = some created ∧ created + m < nowDt) := by
  constructor
  · intro c m hlook hexp hm hfail hu hcl hact hlt
    obtain ⟨u, hu2⟩ := Option.isSome_iff_exists.mp hu
    have hnex : isExpired fromiso nowDt c = false := by
      simp [isExpired, hexp, hm, hfail]
    simp [redeem_code_db, hu2, hcl, hlook, hact, not_le.mpr hlt, hnex]
  · intro hres
    unfold redeem_code_db at hres
    by_cases h1 : (lookupRow uid db.users).isNone = true
    · rw [if_pos h1] at hres
      simp at hres
    · rw [if_neg h1] at hres
      by_cases h2 : alreadyClaimed db uid code = true
      · rw [if_pos h2] at hres
        simp at hres
      · rw [if_neg h2] at hres
        cases h3 : lookupRow code db.codes with
        | none =>
          simp only [h3] at hres
          simp at hres
        | some c =>
          simp only [h3] at hres
          by_cases h4 : c.is_active = false
          · rw [if_pos h4] at hres
            simp at hres
          · rw [if_neg h4] at hres
            by_cases h5 : c.max_uses ≤ c.current_uses
            · rw [if_pos h5] at hres
              simp at hres
            · rw [if_neg h5] at hres
              by_cases h6 : isExpired fromiso nowDt c = true
              · refine ⟨c, ?_⟩
                unfold isExpired at h6
                cases hm : c.expiry_minutes with
                | none =>
                  simp only [hm] at h6
                  exact absurd h6 (by simp)
                | some m =>
                  simp only [hm] at h6
                  by_cases hmp : 0 < m
                  · rw [if_pos hmp] at h6
                    cases hf : fromiso c.created_date with
                    | none =>
                      simp only [hf] at h6
                      exact absurd h6 (by simp)
                    | some created =>
                      simp only [hf, decide_eq_true_eq] at h6
                      exact ⟨m, created, rfl, rfl, hmp, rfl, h6⟩
                  · rw [if_neg hmp] at h6
                    exact absurd h6 (by simp)
              · rw [if_neg h6] at hres
                simp at hres

/-- Closed instance of `C8_expiry_leniency`: code `"E"` in `dbExp` has a
positive 30-minute expiry but `fromisoFail` cannot parse its creation
timestamp, so redemption succeeds. -/
theorem C8_expiry_leniency_witness :
    (redeem_code_db fromisoFail 1000000 "t1" 1 "E" dbExp).1
      = RedeemResult.credited 10 :=
  (C8_expiry_leniency fromisoFail 1000000 "t1" 1 "E" dbExp).1 cRowExp 30
    (by decide) (by decide) (by decide) (by decide) (by decide) (by decide)
    (by decide) (by decide)

/-- C10.  Calling `update_credits` on an identity with no users row still
returns `True`: the update matches zero rows, nothing changes, and the
`True` result therefore does not imply any balance changed. -/
theorem C10_adjust_missing_user (now : String) (uid d : Int) (db : DB)
    (h : lookupRow uid db.users = none) :
    update_credits now uid d db = (true, db) := by
  unfold update_credits
  by_cases hd : 0 < d
  · rw [if_pos hd, updateRow_of_lookup_none _ h]
  · rw [if_neg hd, updateRow_of_lookup_none _ h]

/-- Closed instance of `C10_adjust_missing_user`: user 99 is absent from
`dbW`, yet the call reports success and the state is untouched. -/
theorem C10_adjust_missing_user_witness :
    update_credits "t1" 99 5 dbW = (true, dbW) :=
  C10_adjust_missing_user "t1" 99 5 dbW (by decide)

end OsintTracker
